import Mathlib

/-!
Verification of the `member-lib` core components against the source:
the circuit breaker (`behavior/breaker`, together with `pkg/stringconv`)
and the generic resource pool manager (`pkg/creational/pool`).

The Go code is shallowly embedded below.  Conventions:
- Sequential executions are modelled; each public operation is a pure
  state transformer.  This matches the claims, all of which describe
  sequentially executed call sequences.
- `time.Time` / `time.Duration` values are modelled as exact integers
  (nanoseconds).  No claim concerns 64-bit time overflow, which would
  require centuries of uptime to reach.
- The breaker's `failureCount`/`failureLimit` are `uint64` in the source;
  they are modelled as unbounded naturals since the counter moves by at
  most one per call, so reaching the 64-bit wrap needs 2^64 sequential
  calls, unreachable in any execution.
- The pool's `uint8` quantities (`usageCount`, the size counter in
  `verifyCurrentPoolSize`) wrap at 256 and these wraps ARE reachable
  (e.g. 256 acquisitions with usage limit 0), so they are modelled with
  an explicit `% 256`.
-/

namespace Breaker

/-- State of the circuit breaker (`behavior/breaker/state.go`):
`StateClosed = 0`, `StateHalfOpen = 1`, `StateOpen = 2`.  The Go `State`
is a `byte`, but every value the implementation ever stores is one of
these three constants, so an inductive with three constructors is
faithful for all reachable breakers. -/
inductive State where
  | closed
  | halfOpen
  | opened
deriving DecidableEq, Repr

/-- The `CircuitBreaker` struct (`behavior/breaker/breaker.go`).
`timeout` and `lastAttempt` are in nanoseconds (`time.Duration` /
`time.Time`); `failureCount`/`failureLimit` are the `uint64` counters.
The `OnSuccess`/`OnFailure` hooks and the mutex carry no state relevant
to the claims and are omitted. -/
structure CircuitBreaker where
  currentState : State
  timeout : Int
  lastAttempt : Int
  failureCount : Nat
  failureLimit : Nat
deriving DecidableEq, Repr

/-- Outcome of one invocation of the wrapped `Action`: whether it fails,
and opaque tags standing for the returned value / error identity. -/
structure ActionSpec where
  fails : Bool
  value : Nat
  errCode : Nat
deriving DecidableEq, Repr

/-- What `Proceed` returns: the action's value, the action's own error
propagated verbatim, or the sentinel `ErrCircuitOpen`. -/
inductive ProceedOutcome where
  | ok (value : Nat)
  | actionError (errCode : Nat)
  | errCircuitOpen
deriving DecidableEq, Repr

/-- Result of one `Proceed` call: the updated breaker, the returned
outcome, and whether the wrapped `Action` was invoked. -/
structure ProceedResult where
  cb : CircuitBreaker
  outcome : ProceedOutcome
  invoked : Bool
deriving DecidableEq, Repr

/-- `GetState` (breaker.go line 115). -/
def getState (cb : CircuitBreaker) : State :=
  cb.currentState

/-- `setState` (breaker.go line 131). -/
def setState (cb : CircuitBreaker) (s : State) : CircuitBreaker :=
  { cb with currentState := s }

/-- `recordFailure` (breaker.go line 138): increments `failureCount`,
stamps `lastAttempt` with the current time, and opens the breaker when
the count strictly exceeds `failureLimit`. -/
def recordFailure (cb : CircuitBreaker) (now : Int) : CircuitBreaker :=
  let c := cb.failureCount + 1
  let cb' := { cb with failureCount := c, lastAttempt := now }
  if c > cb.failureLimit then setState cb' State.opened else cb'

/-- `recordSuccess` (breaker.go line 150): decrements a positive
`failureCount`; when the count is already zero it (only then) sets the
state to Closed. -/
def recordSuccess (cb : CircuitBreaker) : CircuitBreaker :=
  if cb.failureCount > 0 then
    { cb with failureCount := cb.failureCount - 1 }
  else
    setState cb State.closed

/-- `isTimeout` (breaker.go line 162): `time.Since(lastAttempt) > timeout`. -/
def isTimeout (cb : CircuitBreaker) (now : Int) : Bool :=
  now - cb.lastAttempt > cb.timeout

/-- The Closed/HalfOpen branch of `Proceed` (breaker.go lines 99-110):
invoke the action; on error record the failure and return the error, on
success record the success and return the result. -/
def proceedBody (cb : CircuitBreaker) (now : Int) (a : ActionSpec) : ProceedResult :=
  if a.fails then
    ⟨recordFailure cb now, ProceedOutcome.actionError a.errCode, true⟩
  else
    ⟨recordSuccess cb, ProceedOutcome.ok a.value, true⟩

/-- `Proceed` (breaker.go line 90).  In the Open state (the `default`
switch branch): when timed out, set HalfOpen and recurse — the recursive
call then lands in the HalfOpen/Closed branch, so the recursion is
unfolded once here; otherwise fail fast with `ErrCircuitOpen` without
invoking the action. -/
def proceed (cb : CircuitBreaker) (now : Int) (a : ActionSpec) : ProceedResult :=
  match cb.currentState with
  | State.opened =>
      if isTimeout cb now then
        proceedBody (setState cb State.halfOpen) now a
      else
        ⟨cb, ProceedOutcome.errCircuitOpen, false⟩
  | _ => proceedBody cb now a

/-- A sequence of `Proceed` calls, each given by its wall-clock time and
the behaviour of the action supplied to it; returns the final breaker. -/
def runCalls : List (Int × ActionSpec) → CircuitBreaker → CircuitBreaker
  | [], cb => cb
  | (t, a) :: rest, cb => runCalls rest (proceed cb t a).cb

/-! Embedding of `pkg/stringconv` (`ToWholeNumber` and its helpers), as
instantiated by `NewCircuitBreaker` at `int32` (for `ResetTimeout`) and
`uint64` (for `MaxFailuresThreshold`).  Strings are handled through
their character lists; the claim-relevant inputs are ASCII, where Go's
byte length `len(str)` equals the character count. -/

/-- Value of a decimal digit character, `none` for a non-digit. -/
def digitVal (c : Char) : Option Nat :=
  if c ≥ '0' ∧ c ≤ '9' then some (c.toNat - 48) else none

/-- Decimal value of a digit list (most significant first), `none` if
any character is not a digit. -/
def digitsToNatAux : List Char → Nat → Option Nat
  | [], acc => some acc
  | c :: cs, acc =>
    match digitVal c with
    | none => none
    | some d => digitsToNatAux cs (acc * 10 + d)

/-- Decimal value of a nonempty digit list, `none` otherwise. -/
def digitsToNat : List Char → Option Nat
  | [] => none
  | cs => digitsToNatAux cs 0

/-- Go's `strconv.ParseInt(s, 10, bitSize)` restricted to the cases the
source exercises: optional single sign, then a nonempty run of decimal
digits, with the value required to fit in
`[-2^(bitSize-1), 2^(bitSize-1) - 1]`.  (On syntax or range error the
source only checks `err == nil`, so errors are collapsed to `none`.) -/
def strconvParseInt (chars : List Char) (bitSize : Nat) : Option Int :=
  let signAndDigits : Bool × List Char :=
    match chars with
    | '-' :: t => (true, t)
    | '+' :: t => (false, t)
    | t => (false, t)
  match digitsToNat signAndDigits.2 with
  | none => none
  | some n =>
    let v : Int := if signAndDigits.1 then -(n : Int) else (n : Int)
    if -((2 : Int) ^ (bitSize - 1)) ≤ v ∧ v ≤ (2 : Int) ^ (bitSize - 1) - 1 then
      some v
    else
      none

/-- Go's `strconv.ParseUint(s, 10, bitSize)`: no sign permitted, a
nonempty run of decimal digits, value below `2^bitSize`. -/
def strconvParseUint (chars : List Char) (bitSize : Nat) : Option Nat :=
  match digitsToNat chars with
  | none => none
  | some n => if n < 2 ^ bitSize then some n else none

/-- `stringconv.parseInt` (stringconv.go): attempted only when the
string starts with a minus or is no longer than
`len("9223372036854775807") = 19`; the Go fallthrough leaves
`result = 0` with the error flag set, modelled as `none`. -/
def parseIntSrc (chars : List Char) (maxBitSize : Nat) : Option Int :=
  let isNegativeInt : Bool := match chars with | '-' :: _ => true | _ => false
  if isNegativeInt = true ∨ chars.length ≤ 19 then
    strconvParseInt chars maxBitSize
  else
    none

/-- `stringconv.parseUint` (stringconv.go): attempted only when the
string is no longer than `len("18446744073709551615") = 20`. -/
def parseUintSrc (chars : List Char) (maxBitSize : Nat) : Option Nat :=
  if chars.length ≤ 20 then strconvParseUint chars maxBitSize else none

/-- `stringconv.ToWholeNumber[uint64]`: `defineMaxIntType` yields bit
size 64; the signed parse is tried first and its `int64` result is
converted to `uint64` by two's-complement wrap (`T(pInt)`, i.e.
`mod 2^64`); only when the signed parse fails (leaving `result = 0`
with the error flag set) is the unsigned parse tried. -/
def toWholeNumberUint64 (chars : List Char) : Option Nat :=
  match parseIntSrc chars 64 with
  | some v => some (v % ((2 : Int) ^ 64)).toNat
  | none =>
    match parseUintSrc chars 64 with
    | some n => some n
    | none => none

/-- `stringconv.ToWholeNumber[int32]`: bit size 32; a successful signed
parse is already in `int32` range; an unsigned fallback result in
`[0, 2^32)` is converted to `int32` by two's-complement wrap. -/
def toWholeNumberInt32 (chars : List Char) : Option Int :=
  match parseIntSrc chars 32 with
  | some v => some v
  | none =>
    match parseUintSrc chars 32 with
    | some n => some ((((n : Int) + 2 ^ 31) % 2 ^ 32) - 2 ^ 31)
    | none => none

/-- The breaker `Configuration` struct: two string-encoded numbers. -/
structure Configuration where
  maxFailuresThreshold : String
  resetTimeout : String
deriving DecidableEq, Repr

/-- `NewCircuitBreaker` (breaker.go line 65): parses `ResetTimeout` as
`int32` and `MaxFailuresThreshold` as `uint64`, failing (`none`, with
the parse error wrapped) if either conversion errors; otherwise builds
a breaker in `StateClosed` with zero counters and
`timeout = time.Second * restTimout` (nanoseconds). -/
def newCircuitBreaker (cfg : Configuration) : Option CircuitBreaker :=
  match toWholeNumberInt32 cfg.resetTimeout.data with
  | none => none
  | some restTimeout =>
    match toWholeNumberUint64 cfg.maxFailuresThreshold.data with
    | none => none
    | some maxFailures =>
      some { currentState := State.closed
             timeout := 1000000000 * restTimeout
             lastAttempt := 0
             failureCount := 0
             failureLimit := maxFailures }

end Breaker

namespace Pool

/-- `managedResource` (pool.go line 65): the acquired flag, the `uint8`
usage counter, and the identity of the wrapped resource.  Resource
identity (the `*T` pointer used as the `sync.Map` key) is modelled as a
natural number; the factory hands out fresh identities. -/
structure ManagedResource where
  isAcquired : Bool
  usageCount : Nat
  id : Nat
deriving DecidableEq, Repr

/-- `ResourcePoolManager` (pool.go line 80).  The `sync.Map` is
modelled as an association list of entries (keys are the `id`s);
`Range` iterates in list order.  The claims proved below are
insensitive to the unspecified `sync.Map` iteration order.
`nextId` models the factory handing out a fresh resource on each
`Construct` call (it doubles as a construction counter), and
`destroyed` logs, in order, the resources passed to the factory's
`Deconstruction`.  The retry delay is not represented: it only
controls real-time pacing, never the pool contents. -/
structure PoolState where
  pool : List ManagedResource
  maxPoolSize : Nat
  resourceUsageLimit : Nat
  nextId : Nat
  destroyed : List Nat
deriving DecidableEq, Repr

/-- A context's error: `context.Canceled` or `context.DeadlineExceeded`.
`AcquireResource`/`CleanUpManagedResources` propagate whichever the
context reports, verbatim. -/
inductive CtxError where
  | canceled
  | deadlineExceeded
deriving DecidableEq, Repr

/-- Outcome of `getResource`: a resource, or `ErrorPoolLimitReached`
(the only error `getResource` can produce). -/
inductive GetResult where
  | ok (id : Nat)
  | limitReached
deriving DecidableEq, Repr

/-- Outcome of `AcquireResource`: a resource, the propagated context
error, `ErrorPoolLimitReached`, or fuel exhaustion of the model's
retry recursion (the Go code would still be sleeping and retrying). -/
inductive AcquireResult where
  | ok (id : Nat)
  | ctxCanceled (e : CtxError)
  | poolLimit
  | outOfFuel
deriving DecidableEq, Repr

/-- The eligibility test inside `getResource`'s `Range` callback
(pool.go lines 156-161): not acquired, and either the usage limit is 0
(unlimited) or the usage count is below the limit. -/
def eligible (usageLimit : Nat) (mr : ManagedResource) : Bool :=
  !mr.isAcquired && (usageLimit == 0 || mr.usageCount < usageLimit)

/-- The `Range` scan of `getResource` (pool.go lines 148-164): the
callback overwrites `acqManagedResource` with every eligible entry and
always continues, so the scan yields the last eligible entry. -/
def pickEligible (usageLimit : Nat) (pool : List ManagedResource) :
    Option ManagedResource :=
  pool.foldl (fun acc mr => if eligible usageLimit mr then some mr else acc) none

/-- `sync.Map.Store` keyed by resource identity: replace the entry with
the same key if present, otherwise insert. -/
def storeEntry (pool : List ManagedResource) (mr : ManagedResource) :
    List ManagedResource :=
  if pool.any (fun x => x.id == mr.id) then
    pool.map (fun x => if x.id == mr.id then mr else x)
  else
    pool ++ [mr]

/-- `verifyCurrentPoolSize` (pool.go line 267): `maxPoolSize = ^uint8(0)
= 255` is the "unbounded" sentinel and always passes; otherwise the
entries are counted into a `uint8` (hence `% 256`) and the check fails
when that count has reached `maxPoolSize`.  `true` models a `nil`
error. -/
def verifyCurrentPoolSize (s : PoolState) : Bool :=
  if s.maxPoolSize = 255 then
    true
  else if s.pool.length % 256 ≥ s.maxPoolSize then
    false
  else
    true

/-- `createManagedResource` (pool.go line 256): a fresh factory-built
resource, not acquired, usage count zero. -/
def createManagedResource (s : PoolState) : ManagedResource :=
  { isAcquired := false, usageCount := 0, id := s.nextId }

/-- `getResource` (pool.go line 146): scan for the last idle eligible
entry; if none, verify the pool size and construct a new resource (the
construction bumps `nextId`); then increment the winner's `uint8` usage
count, mark it acquired, and store it back. -/
def getResource (s : PoolState) : PoolState × GetResult :=
  match pickEligible s.resourceUsageLimit s.pool with
  | some mr =>
    let mr' := { mr with usageCount := (mr.usageCount + 1) % 256, isAcquired := true }
    ({ s with pool := storeEntry s.pool mr' }, GetResult.ok mr'.id)
  | none =>
    if verifyCurrentPoolSize s then
      let mr := createManagedResource s
      let mr' := { mr with usageCount := (mr.usageCount + 1) % 256, isAcquired := true }
      ({ s with pool := storeEntry s.pool mr', nextId := s.nextId + 1 },
       GetResult.ok mr'.id)
    else
      (s, GetResult.limitReached)

/-- `AcquireResource` (pool.go line 112), sequentially: a cancelled
context fails first with the context's own error; otherwise one
`getResource` attempt runs to completion (with a live static context
the `select` can only take the result channel).  On
`ErrorPoolLimitReached` with `isNeedToRetryOnTaken = true` the call
sleeps and recurses; the recursion is bounded here by explicit fuel —
each retry is another full `AcquireResource` body. -/
def acquireResourceFuel :
    Nat → PoolState → Option CtxError → Bool → PoolState × AcquireResult
  | 0, s, _, _ => (s, AcquireResult.outOfFuel)
  | _ + 1, s, some e, _ => (s, AcquireResult.ctxCanceled e)
  | n + 1, s, none, retry =>
    match getResource s with
    | (s', GetResult.ok id) => (s', AcquireResult.ok id)
    | (s', GetResult.limitReached) =>
      if retry then
        acquireResourceFuel n s' none retry
      else
        (s', AcquireResult.poolLimit)

/-- `destroyManagedResource` (pool.go line 262): delete the entry and
invoke the factory's `Deconstruction` (logged in `destroyed`). -/
def destroyManagedResource (s : PoolState) (id : Nat) : PoolState :=
  { s with pool := s.pool.filter (fun x => !(x.id == id))
           destroyed := s.destroyed ++ [id] }

/-- `ReleaseResource` (pool.go line 187): silently ignore unknown
resources; below the usage limit (or with limit 0) mark the entry idle
and store it back; at the limit destroy it. -/
def releaseResource (s : PoolState) (id : Nat) : PoolState :=
  match s.pool.find? (fun mr => mr.id == id) with
  | none => s
  | some mr =>
    if s.resourceUsageLimit = 0 ∨ mr.usageCount < s.resourceUsageLimit then
      { s with pool := storeEntry s.pool { mr with isAcquired := false } }
    else
      destroyManagedResource s id

/-- `DetachResource` (pool.go line 206): delete the entry without
invoking `Deconstruction`; no-op when the resource is not managed. -/
def detachResource (s : PoolState) (id : Nat) : PoolState :=
  match s.pool.find? (fun mr => mr.id == id) with
  | none => s
  | some _ => { s with pool := s.pool.filter (fun x => !(x.id == id)) }

/-- One iteration of the `CleanUpManagedResources` loop body
(pool.go lines 226-239): the `Range` callback overwrites its local with
every entry, so it picks the last entry, which is then destroyed; an
empty pool leaves the iteration a no-op. -/
def cleanUpIter : Nat → PoolState → PoolState
  | 0, s => s
  | n + 1, s =>
    match s.pool.getLast? with
    | some mr => cleanUpIter n (destroyManagedResource s mr.id)
    | none => cleanUpIter n s

/-- `CleanUpManagedResources` (pool.go line 220): fail fast with the
context's error when already cancelled; otherwise run the destroy loop
`maxPoolSize` times and return `nil` (`none`). -/
def cleanUpManagedResources (s : PoolState) (ctxErr : Option CtxError) :
    PoolState × Option CtxError :=
  match ctxErr with
  | some e => (s, some e)
  | none => (cleanUpIter s.maxPoolSize s, none)

/-- `NewResourcePoolManager` (pool.go line 99): empty pool with the
given capacity and usage limit. -/
def initState (poolSize resourceUsageLimit : Nat) : PoolState :=
  { pool := []
    maxPoolSize := poolSize
    resourceUsageLimit := resourceUsageLimit
    nextId := 0
    destroyed := [] }

/-- `n` successive non-retrying acquisitions under a live context,
keeping only the pool state. -/
def runAcquires : Nat → PoolState → PoolState
  | 0, s => s
  | n + 1, s => runAcquires n (acquireResourceFuel 1 s none false).1

/-- One sequential public pool operation, for quantifying over call
sequences.  An `acquire` is a single `getResource` resolution: under
sequential execution a retrying acquire either succeeds at once or
repeats `getResource` on an unchanged pool, so retries never alter the
pool contents (the fuel-1 run makes that explicit). -/
inductive PoolOp where
  | acquire (retry : Bool)
  | release (id : Nat)
  | detach (id : Nat)
  | cleanup
deriving DecidableEq, Repr

/-- Execute one operation against the pool (live context). -/
def runOp (s : PoolState) : PoolOp → PoolState
  | PoolOp.acquire retry => (acquireResourceFuel 1 s none retry).1
  | PoolOp.release id => releaseResource s id
  | PoolOp.detach id => detachResource s id
  | PoolOp.cleanup => (cleanUpManagedResources s none).1

/-- Execute a sequence of operations from a given state. -/
def runOps (s : PoolState) : List PoolOp → PoolState
  | [] => s
  | op :: ops => runOps (runOp s op) ops

/-- The pool of `n` all-acquired single-use resources with identities
`0, …, n-1` — exactly what `n` back-to-back acquisitions produce. -/
def busyPool (n : Nat) : List ManagedResource :=
  (List.range n).map (fun i => ⟨true, 1, i⟩)

end Pool


/-! ### Helper lemmas (shared; none of these is a claim theorem) -/

namespace Breaker

/-- A run of failing calls on a Closed breaker whose failure budget is
not exhausted stays Closed and counts every failure. -/
theorem runCalls_closed_fail (calls : List (Int × ActionSpec)) :
    ∀ cb : CircuitBreaker, cb.currentState = State.closed →
      (∀ c ∈ calls, c.2.fails = true) →
      cb.failureCount + calls.length ≤ cb.failureLimit →
      (runCalls calls cb).currentState = State.closed ∧
        (runCalls calls cb).failureCount = cb.failureCount + calls.length ∧
        (runCalls calls cb).failureLimit = cb.failureLimit := by
  induction calls with
  | nil =>
    intro cb hst _ _
    exact ⟨hst, rfl, rfl⟩
  | cons c rest ih =>
    intro cb hst hf hle
    obtain ⟨t, a⟩ := c
    obtain ⟨st, tmo, la, fc, fl⟩ := cb
    simp only [CircuitBreaker.currentState] at hst
    subst hst
    simp only [CircuitBreaker.failureCount, CircuitBreaker.failureLimit,
      List.length_cons] at hle ⊢
    have ha : a.fails = true := hf (t, a) (List.mem_cons_self _ _)
    have hnot : ¬ (fc + 1 > fl) := by omega
    have hstep : (proceed ⟨State.closed, tmo, la, fc, fl⟩ t a).cb
        = ⟨State.closed, tmo, t, fc + 1, fl⟩ := by
      simp [proceed, proceedBody, ha, recordFailure, hnot, setState]
    simp only [runCalls, hstep]
    have := ih ⟨State.closed, tmo, t, fc + 1, fl⟩ rfl
      (fun x hx => hf x (List.mem_cons_of_mem _ hx)) (by simpa using by omega)
    simpa [Nat.add_assoc, Nat.add_comm, Nat.add_left_comm] using this

/-- In a non-Open state, `Proceed` with a failing action records the
failure and returns the action's error. -/
theorem proceed_fail_eq (cb : CircuitBreaker) (t : Int) (a : ActionSpec)
    (hst : cb.currentState ≠ State.opened) (ha : a.fails = true) :
    proceed cb t a = ⟨recordFailure cb t, ProceedOutcome.actionError a.errCode, true⟩ := by
  obtain ⟨st, tmo, la, fc, fl⟩ := cb
  cases st with
  | opened => exact absurd rfl hst
  | closed => simp [proceed, proceedBody, ha]
  | halfOpen => simp [proceed, proceedBody, ha]

/-- In a non-Open state, `Proceed` with a succeeding action records the
success and returns the action's value. -/
theorem proceed_succ_eq (cb : CircuitBreaker) (t : Int) (a : ActionSpec)
    (hst : cb.currentState ≠ State.opened) (ha : a.fails = false) :
    proceed cb t a = ⟨recordSuccess cb, ProceedOutcome.ok a.value, true⟩ := by
  obtain ⟨st, tmo, la, fc, fl⟩ := cb
  cases st with
  | opened => exact absurd rfl hst
  | closed => simp [proceed, proceedBody, ha]
  | halfOpen => simp [proceed, proceedBody, ha]

/-- An Open breaker that has not yet timed out rejects the call and is
left untouched. -/
theorem open_fail_fast (cb : CircuitBreaker) (now : Int) (a : ActionSpec)
    (hst : cb.currentState = State.opened)
    (ht : now - cb.lastAttempt ≤ cb.timeout) :
    proceed cb now a = ⟨cb, ProceedOutcome.errCircuitOpen, false⟩ := by
  obtain ⟨st, tmo, la, fc, fl⟩ := cb
  simp only [CircuitBreaker.currentState] at hst
  subst hst
  have hto : isTimeout ⟨State.opened, tmo, la, fc, fl⟩ now = false := by
    simp only [isTimeout, decide_eq_false_iff_not]
    simp only [CircuitBreaker.lastAttempt, CircuitBreaker.timeout] at ht
    omega
  simp [proceed, hto]

/-- `recordFailure` below the threshold: count up, stamp the time, keep
the state. -/
theorem recordFailure_of_le (cb : CircuitBreaker) (t : Int)
    (h : cb.failureCount + 1 ≤ cb.failureLimit) :
    recordFailure cb t = { cb with failureCount := cb.failureCount + 1, lastAttempt := t } := by
  have : ¬ (cb.failureCount + 1 > cb.failureLimit) := by omega
  simp [recordFailure, this]

/-- `recordFailure` past the threshold: count up, stamp the time, open. -/
theorem recordFailure_of_gt (cb : CircuitBreaker) (t : Int)
    (h : cb.failureCount + 1 > cb.failureLimit) :
    recordFailure cb t
      = { cb with currentState := State.opened
                  failureCount := cb.failureCount + 1
                  lastAttempt := t } := by
  simp [recordFailure, h, setState]

end Breaker

/-! ### Claim theorems: circuit breaker -/

namespace Breaker

/-- C1: for every breaker constructed with `MaxFailuresThreshold = k`
(Closed, `failureCount = 0`), after `k` consecutive failing `Proceed`
calls (arbitrary call times and failing actions) the state is still
Closed, and the `(k+1)`-th consecutive failing call makes `GetState()`
report Open — the Closed-to-Open transition happens exactly when the
failure count strictly exceeds `k` after a failed action. -/
theorem c1_opens_exactly_past_threshold
    (cb : CircuitBreaker) (k : Nat)
    (hst : getState cb = State.closed) (hc : cb.failureCount = 0)
    (hk : cb.failureLimit = k)
    (calls : List (Int × ActionSpec)) (hf : ∀ c ∈ calls, c.2.fails = true)
    (hlen : calls.length = k) (t : Int) (a : ActionSpec) (ha : a.fails = true) :
    getState (runCalls calls cb) = State.closed ∧
      getState (proceed (runCalls calls cb) t a).cb = State.opened := by
  obtain ⟨h1, h2, h3⟩ := runCalls_closed_fail calls cb hst hf (by omega)
  refine ⟨h1, ?_⟩
  rw [proceed_fail_eq _ _ _ (by rw [h1]; intro h; cases h) ha]
  rw [recordFailure_of_gt _ _ (by omega)]
  rfl

/-- Witness for C1 at `k = 2`: two failing calls leave the breaker
Closed, the third opens it. -/
theorem c1_opens_exactly_past_threshold_witness :
    getState (runCalls [(0, ⟨true, 0, 0⟩), (1, ⟨true, 0, 0⟩)]
        ⟨State.closed, 1000000000, 0, 0, 2⟩) = State.closed ∧
      getState (proceed (runCalls [(0, ⟨true, 0, 0⟩), (1, ⟨true, 0, 0⟩)]
        ⟨State.closed, 1000000000, 0, 0, 2⟩) 2 ⟨true, 0, 0⟩).cb = State.opened :=
  c1_opens_exactly_past_threshold ⟨State.closed, 1000000000, 0, 0, 2⟩ 2
    rfl rfl rfl [(0, ⟨true, 0, 0⟩), (1, ⟨true, 0, 0⟩)] (by decide) rfl 2 ⟨true, 0, 0⟩ rfl

/-- C2: while the breaker is Open and the elapsed time since
`lastAttempt` does not exceed `ResetTimeout`, every `Proceed` call
returns the sentinel `ErrCircuitOpen`, leaves the whole breaker state
(state, `failureCount`, `lastAttempt`) unchanged, and never invokes the
wrapped action. -/
theorem c2_open_fails_fast
    (cb : CircuitBreaker) (now : Int) (a : ActionSpec)
    (hst : getState cb = State.opened)
    (ht : now - cb.lastAttempt ≤ cb.timeout) :
    proceed cb now a = ⟨cb, ProceedOutcome.errCircuitOpen, false⟩ :=
  open_fail_fast cb now a hst ht

/-- Witness for C2: an Open breaker probed 3ns after the last attempt
with a 5ns timeout rejects the call. -/
theorem c2_open_fails_fast_witness :
    proceed ⟨State.opened, 5, 0, 1, 0⟩ 3 ⟨false, 7, 9⟩
      = ⟨⟨State.opened, 5, 0, 1, 0⟩, ProceedOutcome.errCircuitOpen, false⟩ :=
  c2_open_fails_fast ⟨State.opened, 5, 0, 1, 0⟩ 3 ⟨false, 7, 9⟩ rfl (by decide)

/-- C3 (amended): once the elapsed time since the last failure exceeds
`ResetTimeout`, the next `Proceed` call transitions the breaker through
HalfOpen and invokes the action in that same call; if that invocation
succeeds, a positive failure count is decremented by one and the state
remains HalfOpen — the state becomes Closed only via a success that
happens while the failure count is already zero. -/
theorem c3_half_open_recovery
    (cb : CircuitBreaker) (now : Int) (a : ActionSpec)
    (hst : getState cb = State.opened)
    (ht : now - cb.lastAttempt > cb.timeout) (ha : a.fails = false) :
    (proceed cb now a).invoked = true ∧
      (proceed cb now a).outcome = ProceedOutcome.ok a.value ∧
      (cb.failureCount = 0 → getState (proceed cb now a).cb = State.closed) ∧
      (0 < cb.failureCount →
        getState (proceed cb now a).cb = State.halfOpen ∧
          (proceed cb now a).cb.failureCount = cb.failureCount - 1) := by
  obtain ⟨st, tmo, la, fc, fl⟩ := cb
  simp only [getState] at hst
  subst hst
  have hto : isTimeout ⟨State.opened, tmo, la, fc, fl⟩ now = true := by
    simp only [isTimeout, decide_eq_true_eq]
    simp only [CircuitBreaker.lastAttempt, CircuitBreaker.timeout] at ht
    omega
  have hbody : proceed ⟨State.opened, tmo, la, fc, fl⟩ now a
      = ⟨recordSuccess ⟨State.halfOpen, tmo, la, fc, fl⟩,
          ProceedOutcome.ok a.value, true⟩ := by
    simp only [proceed, hto, if_true, setState]
    simp [proceedBody, ha]
  rw [hbody]
  cases fc with
  | zero => simp [recordSuccess, setState, getState]
  | succ n => simp [recordSuccess, setState, getState]

/-- Witness for C3 at a breaker with one recorded failure: the probe is
invoked, succeeds, the count drops to zero and the state is HalfOpen. -/
theorem c3_half_open_recovery_witness :
    (proceed ⟨State.opened, 5, 0, 1, 0⟩ 6 ⟨false, 7, 9⟩).invoked = true ∧
      (proceed ⟨State.opened, 5, 0, 1, 0⟩ 6 ⟨false, 7, 9⟩).outcome
        = ProceedOutcome.ok 7 ∧
      ((⟨State.opened, 5, 0, 1, 0⟩ : CircuitBreaker).failureCount = 0 →
        getState (proceed ⟨State.opened, 5, 0, 1, 0⟩ 6 ⟨false, 7, 9⟩).cb
          = State.closed) ∧
      (0 < (⟨State.opened, 5, 0, 1, 0⟩ : CircuitBreaker).failureCount →
        getState (proceed ⟨State.opened, 5, 0, 1, 0⟩ 6 ⟨false, 7, 9⟩).cb
          = State.halfOpen ∧
          (proceed ⟨State.opened, 5, 0, 1, 0⟩ 6 ⟨false, 7, 9⟩).cb.failureCount
            = (⟨State.opened, 5, 0, 1, 0⟩ : CircuitBreaker).failureCount - 1) :=
  c3_half_open_recovery ⟨State.opened, 5, 0, 1, 0⟩ 6 ⟨false, 7, 9⟩ rfl (by decide) rfl

/-- C3 counterexample: `NewCircuitBreaker` with threshold `"0"` and
reset timeout `"1"` second; one failing call opens the breaker with
failure count 1; after the timeout elapses the probe succeeds and the
failure count drops to zero — yet the state is HalfOpen, not Closed,
refuting "if that invocation succeeds and the failure count drops to
zero, the state becomes Closed". -/
theorem c3_half_open_recovery_counterexample :
    newCircuitBreaker ⟨"0", "1"⟩ = some ⟨State.closed, 1000000000, 0, 0, 0⟩ ∧
      (proceed ⟨State.closed, 1000000000, 0, 0, 0⟩ 0 ⟨true, 0, 0⟩).cb
        = ⟨State.opened, 1000000000, 0, 1, 0⟩ ∧
      (proceed ⟨State.opened, 1000000000, 0, 1, 0⟩ 1000000001 ⟨false, 0, 0⟩).invoked
        = true ∧
      (proceed ⟨State.opened, 1000000000, 0, 1, 0⟩ 1000000001 ⟨false, 0, 0⟩).outcome
        = ProceedOutcome.ok 0 ∧
      (proceed ⟨State.opened, 1000000000, 0, 1, 0⟩ 1000000001 ⟨false, 0, 0⟩).cb.failureCount
        = 0 ∧
      getState (proceed ⟨State.opened, 1000000000, 0, 1, 0⟩ 1000000001 ⟨false, 0, 0⟩).cb
        = State.halfOpen := by
  decide

/-- C10: a HalfOpen breaker whose failure count already exceeds the
threshold `k` (as after opening at the threshold) moves back to Open in
the same `Proceed` call when the probe action fails — the count is
incremented and still exceeds `k` — and a subsequent `Proceed` within
`ResetTimeout` of the failed probe fails fast with `ErrCircuitOpen`
without invoking its action. -/
theorem c10_failed_probe_reopens
    (cb : CircuitBreaker) (k : Nat) (t tn : Int) (a an : ActionSpec)
    (hst : getState cb = State.halfOpen) (hk : cb.failureLimit = k)
    (hc : k + 1 ≤ cb.failureCount) (ha : a.fails = true)
    (htn : tn - t ≤ cb.timeout) :
    getState (proceed cb t a).cb = State.opened ∧
      (proceed cb t a).cb.failureCount = cb.failureCount + 1 ∧
      k < (proceed cb t a).cb.failureCount ∧
      proceed (proceed cb t a).cb tn an
        = ⟨(proceed cb t a).cb, ProceedOutcome.errCircuitOpen, false⟩ := by
  have hstep : proceed cb t a
      = ⟨recordFailure cb t, ProceedOutcome.actionError a.errCode, true⟩ :=
    proceed_fail_eq cb t a
      (by simp only [getState] at hst; rw [hst]; intro h; cases h) ha
  have hrec : recordFailure cb t
      = { cb with currentState := State.opened
                  failureCount := cb.failureCount + 1
                  lastAttempt := t } :=
    recordFailure_of_gt cb t (by omega)
  rw [hstep, hrec]
  refine ⟨rfl, rfl, by simp; omega, ?_⟩
  exact open_fail_fast _ tn an rfl (by simpa using htn)

/-- Witness for C10: threshold 1, HalfOpen with two failures; the failed
probe reopens the breaker and the next call 3ns later is rejected. -/
theorem c10_failed_probe_reopens_witness :
    getState (proceed ⟨State.halfOpen, 5, 0, 2, 1⟩ 0 ⟨true, 0, 0⟩).cb = State.opened ∧
      (proceed ⟨State.halfOpen, 5, 0, 2, 1⟩ 0 ⟨true, 0, 0⟩).cb.failureCount
        = (⟨State.halfOpen, 5, 0, 2, 1⟩ : CircuitBreaker).failureCount + 1 ∧
      1 < (proceed ⟨State.halfOpen, 5, 0, 2, 1⟩ 0 ⟨true, 0, 0⟩).cb.failureCount ∧
      proceed (proceed ⟨State.halfOpen, 5, 0, 2, 1⟩ 0 ⟨true, 0, 0⟩).cb 3 ⟨false, 0, 0⟩
        = ⟨(proceed ⟨State.halfOpen, 5, 0, 2, 1⟩ 0 ⟨true, 0, 0⟩).cb,
            ProceedOutcome.errCircuitOpen, false⟩ :=
  c10_failed_probe_reopens ⟨State.halfOpen, 5, 0, 2, 1⟩ 1 0 3 ⟨true, 0, 0⟩ ⟨false, 0, 0⟩
    rfl rfl (by decide) rfl (by decide)

/-- C8 (amended): `NewCircuitBreaker` returns a nil breaker with an
error if and only if at least one of the two string fields is rejected
by `stringconv.ToWholeNumber` (at `int32` for `ResetTimeout`, `uint64`
for `MaxFailuresThreshold`) — a conversion that also accepts negative
integer strings (and wide values wrapped two's-complement), so "valid
non-negative integer" is too strict.  When both fields convert, it
returns a breaker in Closed with `failureCount = 0` and a nil error. -/
theorem c8_constructor_error_iff_parse_failure (cfg : Configuration) :
    (newCircuitBreaker cfg = none ↔
      toWholeNumberInt32 cfg.resetTimeout.data = none ∨
        toWholeNumberUint64 cfg.maxFailuresThreshold.data = none) ∧
      ∀ cb, newCircuitBreaker cfg = some cb →
        getState cb = State.closed ∧ cb.failureCount = 0 := by
  constructor
  · unfold newCircuitBreaker
    rcases h1 : toWholeNumberInt32 cfg.resetTimeout.data with _ | r
    · simp
    · rcases h2 : toWholeNumberUint64 cfg.maxFailuresThreshold.data with _ | m
      · simp
      · simp
  · intro cb hcb
    unfold newCircuitBreaker at hcb
    rcases h1 : toWholeNumberInt32 cfg.resetTimeout.data with _ | r <;> rw [h1] at hcb
    · cases hcb
    · rcases h2 : toWholeNumberUint64 cfg.maxFailuresThreshold.data with _ | m <;>
        rw [h2] at hcb
      · cases hcb
      · cases hcb
        exact ⟨rfl, rfl⟩

/-- Witness for C8 at the configuration `{"3", "5"}`: construction
succeeds with a Closed breaker and zero failures. -/
theorem c8_constructor_error_iff_parse_failure_witness :
    getState ⟨State.closed, 5000000000, 0, 0, 3⟩ = State.closed ∧
      (⟨State.closed, 5000000000, 0, 0, 3⟩ : CircuitBreaker).failureCount = 0 :=
  (c8_constructor_error_iff_parse_failure ⟨"3", "5"⟩).2
    ⟨State.closed, 5000000000, 0, 0, 3⟩ (by decide)

/-- C8 counterexample: `ResetTimeout = "-1"` is a negative integer — not
a "valid non-negative integer" — yet `NewCircuitBreaker` succeeds (with
a negative timeout), refuting the claimed "if and only if".  Likewise a
negative `MaxFailuresThreshold = "-1"` is accepted, wrapping to
`2^64 - 1`. -/
theorem c8_constructor_error_iff_parse_failure_counterexample :
    newCircuitBreaker ⟨"1", "-1"⟩
        = some ⟨State.closed, -1000000000, 0, 0, 1⟩ ∧
      newCircuitBreaker ⟨"-1", "1"⟩
        = some ⟨State.closed, 1000000000, 0, 0, 2 ^ 64 - 1⟩ := by
  constructor
  · decide
  · decide

end Breaker

/-! ### Helper lemmas: pool -/

namespace Pool

/-- The `Range` scan returns its accumulator unchanged when no entry is
eligible. -/
theorem pickEligible_foldl_of_none (u : Nat) (pool : List ManagedResource)
    (h : ∀ mr ∈ pool, eligible u mr = false) :
    ∀ acc, pool.foldl (fun acc mr => if eligible u mr then some mr else acc) acc = acc := by
  induction pool with
  | nil => intro acc; rfl
  | cons x xs ih =>
    intro acc
    have hx : eligible u x = false := h x (List.mem_cons_self _ _)
    simp only [List.foldl_cons, hx, if_false, Bool.false_eq_true]
    exact ih (fun mr hmr => h mr (List.mem_cons_of_mem _ hmr)) acc

/-- No eligible entry: the scan yields nothing. -/
theorem pickEligible_eq_none (u : Nat) (pool : List ManagedResource)
    (h : ∀ mr ∈ pool, eligible u mr = false) :
    pickEligible u pool = none :=
  pickEligible_foldl_of_none u pool h none

/-- Whatever the scan yields is an entry of the pool. -/
theorem pickEligible_mem (u : Nat) (pool : List ManagedResource) :
    ∀ acc mr, pool.foldl (fun acc mr => if eligible u mr then some mr else acc) acc
        = some mr →
      acc = some mr ∨ mr ∈ pool := by
  induction pool with
  | nil => intro acc mr h; exact Or.inl h
  | cons x xs ih =>
    intro acc mr h
    simp only [List.foldl_cons] at h
    rcases ih _ mr h with hacc | hmem
    · by_cases hx : eligible u x = true
      · simp only [hx, if_true] at hacc
        exact Or.inr (by cases hacc; exact List.mem_cons_self _ _)
      · simp only [eq_false_of_ne_true hx, if_false, Bool.false_eq_true] at hacc
        exact Or.inl hacc
    · exact Or.inr (List.mem_cons_of_mem _ hmem)

/-- `Store` of an entry whose key is already present replaces in place:
the entry count is unchanged. -/
theorem storeEntry_length (pool : List ManagedResource) (mr : ManagedResource) :
    (storeEntry pool mr).length
      = if pool.any (fun x => x.id == mr.id) then pool.length else pool.length + 1 := by
  unfold storeEntry
  split <;> simp

/-- Every entry of the busy pool is an acquired single-use resource with
identity below `n`. -/
theorem mem_busyPool (n : Nat) (x : ManagedResource) (hx : x ∈ busyPool n) :
    x.isAcquired = true ∧ x.usageCount = 1 ∧ x.id < n := by
  obtain ⟨i, hi, rfl⟩ := List.mem_map.mp hx
  exact ⟨rfl, rfl, List.mem_range.mp hi⟩

/-- The busy pool grows by appending the next identity. -/
theorem busyPool_succ (n : Nat) :
    busyPool (n + 1) = busyPool n ++ [⟨true, 1, n⟩] := by
  simp [busyPool, List.range_succ]

/-- The identities of the busy pool are `0, …, n-1`. -/
theorem busyPool_map_id (n : Nat) :
    (busyPool n).map (fun mr => mr.id) = List.range n := by
  simp [busyPool, List.map_map]
  exact List.map_id _

/-- Nothing in an all-busy single-use pool is eligible. -/
theorem pickEligible_busyPool (n : Nat) :
    pickEligible 1 (busyPool n) = none := by
  refine pickEligible_eq_none 1 (busyPool n) ?_
  intro mr hmr
  obtain ⟨hacq, _, _⟩ := mem_busyPool n mr hmr
  simp [eligible, hacq]

/-- `getResource` against a full busy sentinel pool (capacity 255,
usage limit 1, `k` acquired entries): the size check passes via the
sentinel and a fresh resource `k` is constructed and acquired. -/
theorem getResource_busy (k : Nat) (d : List Nat) :
    getResource ⟨busyPool k, 255, 1, k, d⟩
      = (⟨busyPool (k + 1), 255, 1, k + 1, d⟩, GetResult.ok k) := by
  have hany : (busyPool k).any (fun x => x.id == (k : Nat)) = false := by
    rw [List.any_eq_false]
    intro x hx
    obtain ⟨_, _, hlt⟩ := mem_busyPool k x hx
    simp only [beq_iff_eq]
    omega
  unfold getResource
  rw [show pickEligible (⟨busyPool k, 255, 1, k, d⟩ : PoolState).resourceUsageLimit
        (⟨busyPool k, 255, 1, k, d⟩ : PoolState).pool = none from pickEligible_busyPool k]
  simp only [verifyCurrentPoolSize, createManagedResource, if_true]
  simp only [storeEntry, hany, Bool.false_eq_true, if_false, if_true]
  simp [busyPool_succ]

/-- `n` acquisitions against a busy sentinel pool construct `n` fresh
resources. -/
theorem runAcquires_busy (n : Nat) :
    ∀ k d, runAcquires n ⟨busyPool k, 255, 1, k, d⟩ = ⟨busyPool (k + n), 255, 1, k + n, d⟩ := by
  induction n with
  | zero => intro k d; rfl
  | succ n ih =>
    intro k d
    have hstep : acquireResourceFuel 1 ⟨busyPool k, 255, 1, k, d⟩ none false
        = (⟨busyPool (k + 1), 255, 1, k + 1, d⟩, AcquireResult.ok k) := by
      show (match getResource ⟨busyPool k, 255, 1, k, d⟩ with
        | (s', GetResult.ok id) => (s', AcquireResult.ok id)
        | (s', GetResult.limitReached) =>
          if false then acquireResourceFuel 0 s' none false else (s', AcquireResult.poolLimit))
        = (⟨busyPool (k + 1), 255, 1, k + 1, d⟩, AcquireResult.ok k)
      rw [getResource_busy k d]
    show runAcquires n (acquireResourceFuel 1 ⟨busyPool k, 255, 1, k, d⟩ none false).1
      = ⟨busyPool (k + (n + 1)), 255, 1, k + (n + 1), d⟩
    rw [hstep]
    have := ih (k + 1) d
    rw [show k + (n + 1) = k + 1 + n by omega]
    exact this

/-- Deleting the last entry's key from a pool with pairwise-distinct
keys (a map invariant) removes exactly that last entry. -/
theorem filter_concat_self (d : List ManagedResource) (a : ManagedResource)
    (hn : ((d ++ [a]).map (fun mr => mr.id)).Nodup) :
    (d ++ [a]).filter (fun x => !(x.id == a.id)) = d := by
  have hne : ∀ x ∈ d, ¬ x.id = a.id := by
    intro x hx hEq
    rw [List.map_append, List.nodup_append] at hn
    exact hn.2.2 (List.mem_map.mpr ⟨x, hx, rfl⟩) (by simp [hEq])
  rw [List.filter_append]
  have h1 : d.filter (fun x => !(x.id == a.id)) = d :=
    List.filter_eq_self.mpr (fun x hx => by simp [hne x hx])
  have h2 : [a].filter (fun x => !(x.id == a.id)) = ([] : List ManagedResource) := by
    simp
  rw [h1, h2, List.append_nil]

/-- The cleanup loop on a busy sentinel pool removes one entry per
iteration (the last one), leaving `k - n` entries after `n` iterations. -/
theorem cleanUpIter_busy (n : Nat) :
    ∀ k m u nid d, n ≤ k →
      (cleanUpIter n ⟨busyPool k, m, u, nid, d⟩).pool = busyPool (k - n) := by
  induction n with
  | zero => intro k m u nid d _; rfl
  | succ n ih =>
    intro k m u nid d hle
    obtain ⟨k', rfl⟩ : ∃ k', k = k' + 1 := ⟨k - 1, by omega⟩
    have hlast : (busyPool (k' + 1)).getLast? = some ⟨true, 1, k'⟩ := by
      rw [busyPool_succ]
      exact List.getLast?_concat _
    have hfilter : (busyPool (k' + 1)).filter (fun x => !(x.id == k')) = busyPool k' := by
      rw [busyPool_succ]
      exact filter_concat_self (busyPool k') ⟨true, 1, k'⟩
        (by rw [← busyPool_succ, busyPool_map_id]; exact List.nodup_range _)
    have hstep : cleanUpIter (n + 1) ⟨busyPool (k' + 1), m, u, nid, d⟩
        = cleanUpIter n ⟨busyPool k', m, u, nid, d ++ [k']⟩ := by
      have hm : cleanUpIter (n + 1) ⟨busyPool (k' + 1), m, u, nid, d⟩
          = cleanUpIter n (destroyManagedResource ⟨busyPool (k' + 1), m, u, nid, d⟩
              (⟨true, 1, k'⟩ : ManagedResource).id) := by
        show (match (busyPool (k' + 1)).getLast? with
          | some mr =>
            cleanUpIter n (destroyManagedResource ⟨busyPool (k' + 1), m, u, nid, d⟩ mr.id)
          | none => cleanUpIter n ⟨busyPool (k' + 1), m, u, nid, d⟩) = _
        rw [hlast]
      rw [hm]
      show cleanUpIter n
          ⟨(busyPool (k' + 1)).filter (fun x => !(x.id == k')), m, u, nid, d ++ [k']⟩ = _
      rw [hfilter]
    rw [hstep, show k' + 1 - (n + 1) = k' - n by omega]
    exact ih k' m u nid (d ++ [k']) (by omega)

/-- The cleanup loop with enough iterations and a key-distinct pool
destroys every entry, last first, leaving the pool empty and handing
each removed resource to `Deconstruction`. -/
theorem cleanUpIter_clears (n : Nat) :
    ∀ s : PoolState, (s.pool.map (fun mr => mr.id)).Nodup → s.pool.length ≤ n →
      cleanUpIter n s
        = { s with pool := []
                   destroyed := s.destroyed ++ (s.pool.map (fun mr => mr.id)).reverse } := by
  induction n with
  | zero =>
    intro s hn hlen
    obtain ⟨pool, m, u, nid, d⟩ := s
    have hlen' : pool.length ≤ 0 := hlen
    have hempty : pool = [] := List.eq_nil_of_length_eq_zero (by omega)
    subst hempty
    show (⟨[], m, u, nid, d⟩ : PoolState) = _
    simp
  | succ n ih =>
    intro s hn hlen
    obtain ⟨pool, m, u, nid, d⟩ := s
    have hn' : (pool.map (fun mr => mr.id)).Nodup := hn
    have hlen' : pool.length ≤ n + 1 := hlen
    rcases hpool : pool.getLast? with _ | mr
    · have hempty : pool = [] := by
        cases pool with
        | nil => rfl
        | cons x xs =>
          exfalso
          have hg := List.getLast?_eq_getLast (x :: xs) (List.cons_ne_nil x xs)
          rw [hpool] at hg
          exact Option.noConfusion hg
      subst hempty
      have : cleanUpIter (n + 1) ⟨[], m, u, nid, d⟩ = cleanUpIter n ⟨[], m, u, nid, d⟩ := rfl
      rw [this]
      exact ih ⟨[], m, u, nid, d⟩ (by simp) (by simp)
    · have hne : pool ≠ [] := by intro h; rw [h] at hpool; cases hpool
      have hmr : mr = pool.getLast hne := by
        have hg := List.getLast?_eq_getLast pool hne
        rw [hpool] at hg
        exact Option.some_injective _ hg
      have hdecomp : pool.dropLast ++ [mr] = pool := by
        rw [hmr]; exact List.dropLast_append_getLast hne
      have hfilter : pool.filter (fun x => !(x.id == mr.id)) = pool.dropLast := by
        conv_lhs => rw [← hdecomp]
        exact filter_concat_self _ _ (by rw [hdecomp]; exact hn')
      have hstep : cleanUpIter (n + 1) ⟨pool, m, u, nid, d⟩
          = cleanUpIter n ⟨pool.dropLast, m, u, nid, d ++ [mr.id]⟩ := by
        have hm : cleanUpIter (n + 1) ⟨pool, m, u, nid, d⟩
            = cleanUpIter n (destroyManagedResource ⟨pool, m, u, nid, d⟩ mr.id) := by
          show (match pool.getLast? with
            | some mr => cleanUpIter n (destroyManagedResource ⟨pool, m, u, nid, d⟩ mr.id)
            | none => cleanUpIter n ⟨pool, m, u, nid, d⟩) = _
          rw [hpool]
        rw [hm]
        show cleanUpIter n
            ⟨pool.filter (fun x => !(x.id == mr.id)), m, u, nid, d ++ [mr.id]⟩ = _
        rw [hfilter]
      rw [hstep]
      have hnd : (pool.dropLast.map (fun mr => mr.id)).Nodup :=
        List.Nodup.sublist (List.Sublist.map _ (List.dropLast_sublist pool)) hn'
      have hld : pool.dropLast.length ≤ n := by
        have h1 := List.length_dropLast pool
        have hpos : 0 < pool.length := List.length_pos.mpr hne
        omega
      rw [ih ⟨pool.dropLast, m, u, nid, d ++ [mr.id]⟩ hnd hld]
      have hmap : pool.map (fun mr => mr.id)
          = pool.dropLast.map (fun mr => mr.id) ++ [mr.id] := by
        conv_lhs => rw [← hdecomp]
        simp
      simp only [PoolState.mk.injEq, hmap, List.reverse_append]
      simp

/-- When the non-sentinel size check passes, the pool is strictly below
capacity. -/
theorem verify_true_lt (s : PoolState) (hm : s.maxPoolSize ≤ 254)
    (hlen : s.pool.length ≤ s.maxPoolSize) (hv : verifyCurrentPoolSize s = true) :
    s.pool.length < s.maxPoolSize := by
  unfold verifyCurrentPoolSize at hv
  have h255 : ¬ (s.maxPoolSize = 255) := by omega
  rw [if_neg h255] at hv
  by_cases hge : s.pool.length % 256 ≥ s.maxPoolSize
  · rw [if_pos hge] at hv; cases hv
  · have : s.pool.length % 256 = s.pool.length := Nat.mod_eq_of_lt (by omega)
    omega

/-- `getResource` preserves the configured capacity and never pushes a
non-sentinel pool past it. -/
theorem getResource_length (s : PoolState) (hm : s.maxPoolSize ≤ 254)
    (hlen : s.pool.length ≤ s.maxPoolSize) :
    (getResource s).1.maxPoolSize = s.maxPoolSize ∧
      (getResource s).1.pool.length ≤ s.maxPoolSize := by
  rcases hp : pickEligible s.resourceUsageLimit s.pool with _ | mr
  · by_cases hv : verifyCurrentPoolSize s = true
    · have hlt : s.pool.length < s.maxPoolSize := verify_true_lt s hm hlen hv
      simp only [getResource, hp, hv, if_true]
      refine ⟨by trivial, ?_⟩
      rw [storeEntry_length]
      split
      · omega
      · omega
    · have hv' : verifyCurrentPoolSize s = false := eq_false_of_ne_true hv
      simp only [getResource, hp, hv', Bool.false_eq_true, if_false]
      exact ⟨by trivial, hlen⟩
  · have hmem : mr ∈ s.pool := by
      rcases pickEligible_mem s.resourceUsageLimit s.pool none mr hp with h | h
      · cases h
      · exact h
    have hany : s.pool.any (fun x => x.id == mr.id) = true :=
      List.any_eq_true.mpr ⟨mr, hmem, by simp⟩
    simp only [getResource, hp]
    refine ⟨by trivial, ?_⟩
    show (storeEntry s.pool ⟨true, (mr.usageCount + 1) % 256, mr.id⟩).length ≤ s.maxPoolSize
    rw [storeEntry_length]
    simp only [hany, if_true]
    exact hlen

/-- The pool contents after a fuel-1 acquisition are those after one
`getResource` attempt (a failed attempt leaves the pool unchanged, so
further retries start from the same state). -/
theorem acquireFuel1_state (s : PoolState) (retry : Bool) :
    (acquireResourceFuel 1 s none retry).1 = (getResource s).1 := by
  show (match getResource s with
    | (s', GetResult.ok id) => (s', AcquireResult.ok id)
    | (s', GetResult.limitReached) =>
      if retry then acquireResourceFuel 0 s' none retry
      else (s', AcquireResult.poolLimit)).1 = (getResource s).1
  rcases getResource s with ⟨s', r⟩
  cases r with
  | ok id => rfl
  | limitReached => cases retry <;> rfl

/-- `ReleaseResource` preserves capacity and never grows the pool. -/
theorem releaseResource_length (s : PoolState) (id : Nat) :
    (releaseResource s id).maxPoolSize = s.maxPoolSize ∧
      (releaseResource s id).pool.length ≤ s.pool.length := by
  rcases hf : s.pool.find? (fun mr => mr.id == id) with _ | mr
  · simp only [releaseResource, hf]
    exact ⟨by trivial, le_refl _⟩
  · have hmem : mr ∈ s.pool := List.mem_of_find?_eq_some hf
    have hany : s.pool.any (fun x => x.id == mr.id) = true :=
      List.any_eq_true.mpr ⟨mr, hmem, by simp⟩
    simp only [releaseResource, hf]
    by_cases hc : s.resourceUsageLimit = 0 ∨ mr.usageCount < s.resourceUsageLimit
    · rw [if_pos hc]
      refine ⟨rfl, ?_⟩
      show (storeEntry s.pool ⟨false, mr.usageCount, mr.id⟩).length ≤ s.pool.length
      rw [storeEntry_length]
      simp only [hany, if_true]
      exact le_refl _
    · rw [if_neg hc]
      exact ⟨rfl, List.length_filter_le _ _⟩

/-- `DetachResource` preserves capacity and never grows the pool. -/
theorem detachResource_length (s : PoolState) (id : Nat) :
    (detachResource s id).maxPoolSize = s.maxPoolSize ∧
      (detachResource s id).pool.length ≤ s.pool.length := by
  rcases hf : s.pool.find? (fun mr => mr.id == id) with _ | mr
  · simp only [detachResource, hf]
    exact ⟨by trivial, le_refl _⟩
  · simp only [detachResource, hf]
    exact ⟨by trivial, List.length_filter_le _ _⟩

/-- The cleanup loop preserves capacity and never grows the pool. -/
theorem cleanUpIter_length (n : Nat) :
    ∀ s : PoolState, (cleanUpIter n s).maxPoolSize = s.maxPoolSize ∧
      (cleanUpIter n s).pool.length ≤ s.pool.length := by
  induction n with
  | zero => intro s; exact ⟨rfl, le_refl _⟩
  | succ n ih =>
    intro s
    obtain ⟨pool, m, u, nid, d⟩ := s
    rcases hpool : pool.getLast? with _ | mr
    · have hm : cleanUpIter (n + 1) ⟨pool, m, u, nid, d⟩
          = cleanUpIter n ⟨pool, m, u, nid, d⟩ := by
        show (match pool.getLast? with
          | some mr => cleanUpIter n (destroyManagedResource ⟨pool, m, u, nid, d⟩ mr.id)
          | none => cleanUpIter n ⟨pool, m, u, nid, d⟩) = _
        rw [hpool]
      rw [hm]
      exact ih _
    · have hm : cleanUpIter (n + 1) ⟨pool, m, u, nid, d⟩
          = cleanUpIter n ⟨pool.filter (fun x => !(x.id == mr.id)), m, u, nid, d ++ [mr.id]⟩ := by
        show (match pool.getLast? with
          | some mr => cleanUpIter n (destroyManagedResource ⟨pool, m, u, nid, d⟩ mr.id)
          | none => cleanUpIter n ⟨pool, m, u, nid, d⟩) = _
        rw [hpool]
        rfl
      rw [hm]
      obtain ⟨h1, h2⟩ := ih ⟨pool.filter (fun x => !(x.id == mr.id)), m, u, nid, d ++ [mr.id]⟩
      exact ⟨h1, le_trans h2 (List.length_filter_le _ _)⟩

/-- Every single sequential pool operation keeps a non-sentinel pool
within its capacity. -/
theorem runOp_inv (s : PoolState) (op : PoolOp) (hm : s.maxPoolSize ≤ 254)
    (hlen : s.pool.length ≤ s.maxPoolSize) :
    (runOp s op).maxPoolSize = s.maxPoolSize ∧
      (runOp s op).pool.length ≤ s.maxPoolSize := by
  cases op with
  | acquire retry =>
    show (acquireResourceFuel 1 s none retry).1.maxPoolSize = s.maxPoolSize ∧
      (acquireResourceFuel 1 s none retry).1.pool.length ≤ s.maxPoolSize
    rw [acquireFuel1_state]
    exact getResource_length s hm hlen
  | release id =>
    obtain ⟨h1, h2⟩ := releaseResource_length s id
    exact ⟨h1, le_trans h2 hlen⟩
  | detach id =>
    obtain ⟨h1, h2⟩ := detachResource_length s id
    exact ⟨h1, le_trans h2 hlen⟩
  | cleanup =>
    obtain ⟨h1, h2⟩ := cleanUpIter_length s.maxPoolSize s
    exact ⟨h1, le_trans h2 hlen⟩

/-- Operation sequences keep a non-sentinel pool within capacity. -/
theorem runOps_inv (ops : List PoolOp) :
    ∀ s : PoolState, s.maxPoolSize ≤ 254 → s.pool.length ≤ s.maxPoolSize →
      (runOps s ops).maxPoolSize = s.maxPoolSize ∧
        (runOps s ops).pool.length ≤ s.maxPoolSize := by
  induction ops with
  | nil => intro s _ hlen; exact ⟨rfl, hlen⟩
  | cons op ops ih =>
    intro s hm hlen
    obtain ⟨h1, h2⟩ := runOp_inv s op hm hlen
    obtain ⟨h3, h4⟩ := ih (runOp s op) (by rw [h1]; exact hm) (by rw [h1]; exact h2)
    constructor
    · show (runOps (runOp s op) ops).maxPoolSize = s.maxPoolSize
      rw [h3, h1]
    · show (runOps (runOp s op) ops).pool.length ≤ s.maxPoolSize
      rw [← h1]
      exact h4

/-- A fuel-1 acquisition whose `getResource` succeeds returns that
resource. -/
theorem acquireFuel1_ok (s s' : PoolState) (id : Nat) (retry : Bool)
    (h : getResource s = (s', GetResult.ok id)) :
    acquireResourceFuel 1 s none retry = (s', AcquireResult.ok id) := by
  show (match getResource s with
    | (s', GetResult.ok id) => (s', AcquireResult.ok id)
    | (s', GetResult.limitReached) =>
      if retry then acquireResourceFuel 0 s' none retry
      else (s', AcquireResult.poolLimit)) = (s', AcquireResult.ok id)
  rw [h]

/-- A non-retrying acquisition whose `getResource` hits the pool limit
returns `ErrorPoolLimitReached`. -/
theorem acquireFuel1_limit (s s' : PoolState)
    (h : getResource s = (s', GetResult.limitReached)) :
    acquireResourceFuel 1 s none false = (s', AcquireResult.poolLimit) := by
  show (match getResource s with
    | (s', GetResult.ok id) => (s', AcquireResult.ok id)
    | (s', GetResult.limitReached) =>
      if false then acquireResourceFuel 0 s' none false
      else (s', AcquireResult.poolLimit)) = (s', AcquireResult.poolLimit)
  rw [h]
  rfl

end Pool

/-! ### Claim theorems: resource pool -/

namespace Pool

/-- C4: with `poolSize = 1`, `resourceUsageLimit = 2`, the sequential
run acquire/release/acquire/release/acquire behaves as specified: the
first acquire constructs resource A (identity 0) with `usageCount 1`;
the first release marks A idle; the second acquire returns the same A
with `usageCount 2`; the second release removes A from the pool and
passes it to the factory's `Deconstruction` (the `destroyed` log);
the third acquire constructs a distinct fresh resource B (identity 1)
with `usageCount 1`. -/
theorem c4_single_slot_scenario :
    acquireResourceFuel 1 (initState 1 2) none false
        = (⟨[⟨true, 1, 0⟩], 1, 2, 1, []⟩, AcquireResult.ok 0) ∧
      releaseResource ⟨[⟨true, 1, 0⟩], 1, 2, 1, []⟩ 0
        = ⟨[⟨false, 1, 0⟩], 1, 2, 1, []⟩ ∧
      acquireResourceFuel 1 ⟨[⟨false, 1, 0⟩], 1, 2, 1, []⟩ none false
        = (⟨[⟨true, 2, 0⟩], 1, 2, 1, []⟩, AcquireResult.ok 0) ∧
      releaseResource ⟨[⟨true, 2, 0⟩], 1, 2, 1, []⟩ 0
        = ⟨[], 1, 2, 1, [0]⟩ ∧
      acquireResourceFuel 1 ⟨[], 1, 2, 1, [0]⟩ none false
        = (⟨[⟨true, 1, 1⟩], 1, 2, 2, [0]⟩, AcquireResult.ok 1) := by
  decide

/-- C5 (with the sentinel excluded, as the claim states): starting from
a fresh manager with `maxPoolSize = m ≠ 255`, after any sequence of
sequential acquire/release/detach/cleanup operations the number of
entries in the pool never exceeds `m`. -/
theorem c5_pool_size_never_exceeds_max (m u : Nat) (hm : m ≠ 255) (hm255 : m ≤ 255)
    (ops : List PoolOp) :
    (runOps (initState m u) ops).pool.length ≤ m := by
  have h := runOps_inv ops (initState m u) (by simp [initState]; omega)
    (by simp [initState])
  exact h.2

/-- Witness for C5: capacity 1, three operations, one of them retrying
against the full pool; at most one entry ever exists. -/
theorem c5_pool_size_never_exceeds_max_witness :
    (runOps (initState 1 0)
      [PoolOp.acquire false, PoolOp.acquire true, PoolOp.release 0]).pool.length ≤ 1 :=
  c5_pool_size_never_exceeds_max 1 0 (by decide) (by decide)
    [PoolOp.acquire false, PoolOp.acquire true, PoolOp.release 0]

/-- C6: `AcquireResource` under an already-cancelled or expired context
returns immediately with that context's own error, before running
`getResource`: the pool state is returned untouched (so pool contents
are unchanged and the factory's `Construct` — which would bump
`nextId` — is never invoked). -/
theorem c6_cancelled_context_propagates (n : Nat) (s : PoolState) (e : CtxError)
    (retry : Bool) :
    acquireResourceFuel (n + 1) s (some e) retry = (s, AcquireResult.ctxCanceled e) :=
  rfl

/-- C7 (amended as forced by the sentinel counterexample): for a pool
whose `maxPoolSize` is not the max-uint8 sentinel 255, when the entry
count has reached `maxPoolSize` and no idle entry is under the usage
limit, a non-retrying `AcquireResource` under a live context returns
`ErrorPoolLimitReached` with the pool state untouched (no construction,
no membership change, no blocking). -/
theorem c7_exhausted_pool_fails_fast (s : PoolState)
    (hm : s.maxPoolSize ≠ 255) (hm255 : s.maxPoolSize ≤ 255)
    (hfull : s.pool.length = s.maxPoolSize)
    (hidle : pickEligible s.resourceUsageLimit s.pool = none) :
    acquireResourceFuel 1 s none false = (s, AcquireResult.poolLimit) := by
  have hv : verifyCurrentPoolSize s = false := by
    unfold verifyCurrentPoolSize
    rw [if_neg hm]
    have hmod : s.pool.length % 256 = s.pool.length := Nat.mod_eq_of_lt (by omega)
    rw [if_pos (by omega)]
  have hget : getResource s = (s, GetResult.limitReached) := by
    simp only [getResource, hidle, hv, Bool.false_eq_true, if_false]
  exact acquireFuel1_limit s s hget

/-- Witness for C7: a full one-slot pool holding one acquired
single-use resource rejects a non-retrying acquisition. -/
theorem c7_exhausted_pool_fails_fast_witness :
    acquireResourceFuel 1 ⟨[⟨true, 1, 0⟩], 1, 1, 1, []⟩ none false
      = (⟨[⟨true, 1, 0⟩], 1, 1, 1, []⟩, AcquireResult.poolLimit) :=
  c7_exhausted_pool_fails_fast ⟨[⟨true, 1, 0⟩], 1, 1, 1, []⟩
    (by decide) (by decide) (by decide) (by decide)

/-- C7 counterexample: with the sentinel `maxPoolSize = 255`, a pool
reachable by 255 back-to-back acquisitions has 255 entries (its entry
count has reached `maxPoolSize`) and no idle entry, yet a non-retrying
`AcquireResource` does not fail: `verifyCurrentPoolSize` passes via the
sentinel, the factory constructs resource 255, and the pool grows to
256 entries. -/
theorem c7_exhausted_pool_fails_fast_counterexample :
    runAcquires 255 (initState 255 1) = ⟨busyPool 255, 255, 1, 255, []⟩ ∧
      (busyPool 255).length = 255 ∧
      pickEligible 1 (busyPool 255) = none ∧
      acquireResourceFuel 1 ⟨busyPool 255, 255, 1, 255, []⟩ none false
        = (⟨busyPool 256, 255, 1, 256, []⟩, AcquireResult.ok 255) ∧
      (busyPool 256).length = 256 := by
  refine ⟨?_, ?_, ?_, ?_, ?_⟩
  · exact runAcquires_busy 255 0 []
  · simp [busyPool]
  · exact pickEligible_busyPool 255
  · exact acquireFuel1_ok _ _ 255 false (getResource_busy 255 [])
  · simp [busyPool]

/-- C9 (amended as forced by the sentinel counterexample): for a pool
holding at most `maxPoolSize` entries (always the case when
`maxPoolSize ≠ 255`) with pairwise-distinct keys, a cleanup under a
live context removes every pool-managed resource, passing each to the
factory's `Deconstruction` (last entry first), leaves the pool empty
and returns nil; under an already-cancelled context it returns the
context's error with nothing destroyed. -/
theorem c9_cleanup_destroys_all (s : PoolState) (e : CtxError)
    (hn : (s.pool.map (fun mr => mr.id)).Nodup)
    (hlen : s.pool.length ≤ s.maxPoolSize) :
    cleanUpManagedResources s none
        = ({ s with pool := []
                    destroyed := s.destroyed ++ (s.pool.map (fun mr => mr.id)).reverse },
           none) ∧
      cleanUpManagedResources s (some e) = (s, some e) := by
  constructor
  · show (cleanUpIter s.maxPoolSize s, none) = _
    rw [cleanUpIter_clears s.maxPoolSize s hn hlen]
  · rfl

/-- Witness for C9: a two-entry pool is emptied, the later entry
destroyed first; a cancelled context is rejected untouched. -/
theorem c9_cleanup_destroys_all_witness :
    cleanUpManagedResources ⟨[⟨false, 1, 0⟩, ⟨true, 2, 1⟩], 2, 0, 2, [5]⟩ none
        = (⟨[], 2, 0, 2, [5, 1, 0]⟩, none) ∧
      cleanUpManagedResources ⟨[⟨false, 1, 0⟩, ⟨true, 2, 1⟩], 2, 0, 2, [5]⟩
          (some CtxError.canceled)
        = (⟨[⟨false, 1, 0⟩, ⟨true, 2, 1⟩], 2, 0, 2, [5]⟩, some CtxError.canceled) :=
  c9_cleanup_destroys_all ⟨[⟨false, 1, 0⟩, ⟨true, 2, 1⟩], 2, 0, 2, [5]⟩
    CtxError.canceled (by decide) (by decide)

/-- C9 counterexample: with the sentinel `maxPoolSize = 255` a pool of
256 entries is reachable (256 back-to-back acquisitions); cleanup under
a live context runs its loop only `maxPoolSize = 255` times, so one
resource remains pool-managed and undestroyed — the pool is not left
empty, refuting "removes every currently pool-managed resource". -/
theorem c9_cleanup_destroys_all_counterexample :
    runAcquires 256 (initState 255 1) = ⟨busyPool 256, 255, 1, 256, []⟩ ∧
      (cleanUpManagedResources ⟨busyPool 256, 255, 1, 256, []⟩ none).1.pool
        = busyPool 1 ∧
      busyPool 1 ≠ [] := by
  refine ⟨?_, ?_, ?_⟩
  · exact runAcquires_busy 256 0 []
  · show (cleanUpIter 255 ⟨busyPool 256, 255, 1, 256, []⟩).pool = busyPool 1
    exact cleanUpIter_busy 255 256 255 1 256 [] (by omega)
  · simp [busyPool]

end Pool

